import Mathlib

/-
Shallow embedding of the headword-keyed merge and card-synthesis engine of
flawful (src/flawful/add.py), together with theorems settling the claims
about it.

Modelling conventions:
- Python strings are modelled as lists of characters (abbrev Str).
- Python str.strip() is modelled by pyStrip (ASCII whitespace).
- Python str.isdigit() is modelled by Char.isDigit (ASCII digits 0-9).
- Python dictionaries keyed by headword / by int are modelled as association
  lists built in insertion order; entries are only appended when the key is
  absent, so lookup agrees with Python dict semantics.
- Python exceptions (the ValueError raises in add.py) are modelled by the
  Except monad with one error constructor per raise site.
- The external collaborators (str_to_wordlist_key, tag_audio_and_markup) are
  injected as opaque functions in Cfg, following the source where they are
  injected parameters.
- pandas DataFrames are modelled as lists of records; pd.merge(how='outer',
  indicator=...) is modelled by outerMerge; each np.where column assignment
  in create_tl_additional_output is modelled by the corresponding field of
  postMerge.  Row order of the merge result is not modelled (no claim
  depends on it).
-/

namespace Flawful

/-- Python strings, modelled as lists of characters. -/
abbrev Str := List Char

/-- Characters removed by Python str.strip() (ASCII whitespace). -/
def pySpace (c : Char) : Bool :=
  c == ' ' || c == '\t' || c == '\n' || c == '\r' || c == '\x0b' || c == '\x0c'

/-- Model of Python str.strip(): drop leading and trailing whitespace. -/
def pyStrip (s : Str) : Str :=
  ((s.dropWhile pySpace).reverse.dropWhile pySpace).reverse

/-- Model of `not flag_set.isdisjoint(val)`: some character of the token is a
flag character. -/
def hasFlag (flags : Str) (s : Str) : Bool :=
  s.any (fun c => flags.contains c)

/-- Model of `val.translate(str.maketrans('', '', flags))`: delete every flag
character from the token. -/
def stripFlags (flags : Str) (s : Str) : Str :=
  s.filter (fun c => !(flags.contains c))

/-- Model of Python `int(c)` for a single digit character. -/
def digitVal (c : Char) : Nat := c.toNat - '0'.toNat

/-- Whether the pattern is a prefix of the string. -/
def listStartsWith : Str → Str → Bool
  | [], _ => true
  | _ :: _, [] => false
  | a :: ps, b :: ss => a == b && listStartsWith ps ss

/-- Model of Python `p in s` substring containment. -/
def containsSub (p : Str) : Str → Bool
  | [] => listStartsWith p []
  | c :: rest => listStartsWith p (c :: rest) || containsSub p rest

/-- Decimal digit character for a value 0-9. -/
def digitChar (n : Nat) : Char := Char.ofNat (48 + n)

/-- Fuel-driven decimal rendering helper. -/
def natDigitsAux : Nat → Nat → Str
  | 0, _ => []
  | fuel + 1, n =>
    if n < 10 then [digitChar n]
    else natDigitsAux fuel (n / 10) ++ [digitChar (n % 10)]

/-- Model of Python f-string rendering of a nonnegative integer. -/
def natChars (n : Nat) : Str := natDigitsAux (n + 1) n

/-- Model of `';'.join(tl_notes_list)`. -/
def joinSemi : List Str → Str
  | [] => []
  | [s] => s
  | s :: rest => s ++ ';' :: joinSemi rest

/-- One constructor per raise site of add.py that the claims mention, plus the
uncaught IndexError that `tl1_list[...]` can raise in `_make_new_cards` and
the uncaught KeyError that the column selection `tl1_df[['tl1']]` raises in
`create_tl_additional_output` when the flagged-card dictionary is empty. -/
inductive AddError where
  | duplicateRef
  | misformattedRef
  | emptyHeadword
  | conflictingInput
  | indexError
  | keyError
deriving DecidableEq

/-- Output of `_to_def_dict`: association list from 1-based position to
(referenced position or none, free text), in insertion order. -/
abbrev DefDict := List (Nat × (Option Nat × Str))

/-- Statement helper: the trimmed token matches the first recognized shape of
`_to_def_dict` (length >= 3, offset 1 is = or ≈, offsets 0 and 2 digits). -/
def shapeEq (val : Str) : Bool :=
  match val with
  | c0 :: c1 :: c2 :: _ => (c1 == '=' || c1 == '≈') && c0.isDigit && c2.isDigit
  | _ => false

/-- Statement helper: the trimmed token matches the second recognized shape of
`_to_def_dict` (length >= 3, offset 0 digit, offset 1 is the colon). -/
def shapeColon (val : Str) : Bool :=
  match val with
  | c0 :: c1 :: _ :: _ => c0.isDigit && c1 == ':'
  | _ => false

/-- One iteration of the loop of `_to_def_dict` on one notes token. -/
def toDefDictStep (d : DefDict) (tok : Str) : Except AddError DefDict :=
  let val := pyStrip tok
  match val with
  | c0 :: c1 :: c2 :: _ =>
    if (c1 == '=' || c1 == '≈') && c0.isDigit && c2.isDigit then
      if (List.lookup (digitVal c0) d).isSome then .error .duplicateRef
      else if val.length ≤ 4 then
        .ok (d ++ [(digitVal c0, (some (digitVal c2), []))])
      else
        .ok (d ++ [(digitVal c0, (some (digitVal c2), val.drop 4))])
    else if c0.isDigit && c1 == ':' then
      if (List.lookup (digitVal c0) d).isSome then .error .duplicateRef
      else .ok (d ++ [(digitVal c0, (none, val.drop 3))])
    else .ok d
  | _ => .ok d

/-- Model of `_to_def_dict`. -/
def toDefDict : List Str → Except AddError DefDict :=
  go []
where
  /-- Left fold of `toDefDictStep` threading the accumulated dictionary. -/
  go (d : DefDict) : List Str → Except AddError DefDict
    | [] => .ok d
    | tok :: rest =>
      match toDefDictStep d tok with
      | .error e => .error e
      | .ok d' => go d' rest

/-- Result of the external annotation collaborator
`flawful.tag_audio_and_markup` for a single token (out of scope, injected). -/
structure AnnotResult where
  audio_output : Str
  tl1_color : Str
  chapter : Str
  tags : Str

/-- The injected configuration and collaborators of
`create_tl_additional_output`. -/
structure Cfg where
  key : Str → Str
  flags : Str
  nl_abbr : Str
  tl_abbr : Str
  flag_id_prefix : Str
  annotate : Str → AnnotResult

/-- One row of the primary input data frame `df`. -/
structure InputRow where
  nl1 : Str
  part_of_speech : Str
  tl_notes_list : List Str
  tl_pronun : Str
  tl1_list : List Str
  tl2_list : List Str
deriving DecidableEq

/-- The `dict_val` record built by `_make_new_cards` for one flagged token. -/
structure CardVal where
  merge_id : Str
  nl1 : Str
  part_of_speech : Str
  tl_defs : Str
  answer_lang : Str
  tl1 : Str
  tl2 : Str
  tl_pronun : Str
deriving DecidableEq

/-- The accumulating `tl1_flagged_dict_`: headword-keyed association list in
insertion order. -/
abbrev Dict := List (Str × CardVal)

/-- Lines 188-210 of add.py: resolve `answer_lang` and `definition` for the
flagged token at 0-based index `i` from the parsed notes dictionary.  The
Python test `if def_dict[idx+1][0]:` is a truthiness test, so a stored target
position 0 takes the same branch as `None`. -/
def resolveDef (cfg : Cfg) (tl1_list : List Str) (tl_notes_list : List Str)
    (i : Nat) (dd : DefDict) : Except AddError (Str × Str) :=
  match List.lookup (i + 1) dd with
  | some (some m, text) =>
    if m ≠ 0 then
      match tl1_list.get? (m - 1) with
      | some t => .ok ('[' :: cfg.tl_abbr ++ [']'], pyStrip t ++ ' ' :: text)
      | none => .error .indexError
    else .ok ('[' :: cfg.nl_abbr ++ '|' :: cfg.tl_abbr ++ [']'], text)
  | some (none, text) =>
    .ok ('[' :: cfg.nl_abbr ++ '|' :: cfg.tl_abbr ++ [']'], text)
  | none =>
    let tl_notes := joinSemi tl_notes_list
    if containsSub (natChars (i + 1) ++ [':']) tl_notes
        || containsSub (natChars (i + 1) ++ ['=']) tl_notes then
      .error .misformattedRef
    else .ok ('[' :: cfg.nl_abbr ++ [']'], [])

/-- The body of the loop of `_make_new_cards` for the token at 0-based index
`i`, threading the accumulating dictionary. -/
def makeNewCardsTok (cfg : Cfg) (excl : List Str) (row : InputRow) (d : Dict)
    (i : Nat) (tok : Str) : Except AddError Dict :=
  let val := pyStrip tok
  let headword := cfg.key val
  if hasFlag cfg.flags val then
    if headword ∈ excl then .ok d
    else
      let tl2 := pyStrip (row.tl2_list.getD i [])
      match toDefDict row.tl_notes_list with
      | .error e => .error e
      | .ok dd =>
        match resolveDef cfg row.tl1_list row.tl_notes_list i dd with
        | .error e => .error e
        | .ok (answer_lang, definition) =>
          if headword = [] then .error .emptyHeadword
          else
            let v : CardVal :=
              { merge_id := headword, nl1 := row.nl1,
                part_of_speech := row.part_of_speech, tl_defs := definition,
                answer_lang := answer_lang, tl1 := stripFlags cfg.flags val,
                tl2 := tl2, tl_pronun := row.tl_pronun }
            if (List.lookup headword d).isSome then .ok d
            else .ok (d ++ [(headword, v)])
  else .ok d

/-- The enumerate loop of `_make_new_cards` over the primary token list. -/
def makeCardsAux (cfg : Cfg) (excl : List Str) (row : InputRow) :
    Nat → List Str → Dict → Except AddError Dict
  | _, [], d => .ok d
  | i, tok :: rest, d =>
    match makeNewCardsTok cfg excl row d i tok with
    | .error e => .error e
    | .ok d' => makeCardsAux cfg excl row (i + 1) rest d'

/-- Model of `_make_new_cards` for one input record. -/
def makeNewCards (cfg : Cfg) (excl : List Str) (d : Dict) (row : InputRow) :
    Except AddError Dict :=
  makeCardsAux cfg excl row 0 row.tl1_list d

/-- Adding one element to a Python set modelled as a duplicate-free list. -/
def setAdd (s : List Str) (x : Str) : List Str :=
  if x ∈ s then s else s ++ [x]

/-- The loop body of `_add_unflagged_headword_to_set` for one token. -/
def addUnflaggedTok (cfg : Cfg) (s : List Str) (tok : Str) : List Str :=
  let val := pyStrip tok
  let headword := cfg.key val
  if headword ≠ [] ∧ hasFlag cfg.flags val = false then setAdd s headword
  else s

/-- Model of `_add_unflagged_headword_to_set` over one token list. -/
def addUnflagged (cfg : Cfg) (s : List Str) (col : List Str) : List Str :=
  col.foldl (addUnflaggedTok cfg) s

/-- The `tl1_not_flagged_set` accumulated over all rows of the primary input
(lines 476-480 of add.py). -/
def masteredList (cfg : Cfg) (rows : List InputRow) : List Str :=
  rows.foldl (fun s row => addUnflagged cfg s row.tl1_list) []

/-- The record loop of `create_tl_additional_output` (lines 482-493). -/
def foldRows (cfg : Cfg) (excl : List Str) :
    List InputRow → Dict → Except AddError Dict
  | [], d => .ok d
  | row :: rest, d =>
    match makeNewCards cfg excl d row with
    | .error e => .error e
    | .ok d' => foldRows cfg excl rest d'

/-- Synthesis phase of `create_tl_additional_output`: build the mastered set
over the whole input, then accumulate flagged cards record by record. -/
def synthesizeAll (cfg : Cfg) (rows : List InputRow) : Except AddError Dict :=
  foldRows cfg (masteredList cfg rows) rows []

/-- One row of `tl1_df` after the annotation columns are added
(lines 494-512 of add.py). -/
structure FlaggedRow where
  merge_id : Str
  nl1 : Str
  part_of_speech : Str
  tl_defs : Str
  answer_lang : Str
  tl1 : Str
  tl2 : Str
  tl_pronun : Str
  tl_audio : Str
  tl1_color : Str
  chapter : Str
  Tags : Str
deriving DecidableEq

/-- Lines 494-512: turn the flagged-card dictionary into annotated rows.
`pd.DataFrame.from_dict` on an empty dictionary yields a data frame with no
columns, so the column selection `tl1_df[['tl1']]` at line 507 raises
KeyError before any merge can run; with a nonempty dictionary each entry
becomes one annotated row. -/
def annotateFlagged (cfg : Cfg) (d : Dict) :
    Except AddError (List FlaggedRow) :=
  if d = [] then .error .keyError
  else .ok (d.map (fun p =>
    let a := cfg.annotate p.2.tl1
    { merge_id := p.2.merge_id, nl1 := p.2.nl1,
      part_of_speech := p.2.part_of_speech, tl_defs := p.2.tl_defs,
      answer_lang := p.2.answer_lang, tl1 := p.2.tl1, tl2 := p.2.tl2,
      tl_pronun := p.2.tl_pronun, tl_audio := a.audio_output,
      tl1_color := a.tl1_color, chapter := a.chapter, Tags := a.tags }))

/-- One row of `df2`, the processed override table after the column renames of
lines 528-529 (`audio`/`chapter`/`Tags` renamed to `o_*`).  The heavy
per-column preprocessing of `_process_tl_override_df` is carried out by
external collaborators and reaches the merge only through these columns. -/
structure OverrideRow where
  id : Str
  merge_id : Str
  tl_table_answer : Str
  tl_table_prompt : Str
  pronun : Str
  notes : Str
  o_audio : Str
  o_chapter : Str
  o_Tags : Str
deriving DecidableEq

/-- The `_merge` indicator column of the pandas outer merge. -/
inductive MergeInd where
  | left_only
  | right_only
  | both
deriving DecidableEq, BEq

/-- One row of the outer merge result before the np.where column updates. -/
structure MergedRow where
  merge_id : Str
  left : Option FlaggedRow
  right : Option OverrideRow
  merge_ind : MergeInd
deriving DecidableEq

/-- Rows produced for one left row of the outer join: one per matching right
row, or a single left-only row when no right row has the same key. -/
def matchRow (l : FlaggedRow) (R : List OverrideRow) : List MergedRow :=
  match R.filter (fun r => r.merge_id == l.merge_id) with
  | [] => [{ merge_id := l.merge_id, left := some l, right := none,
             merge_ind := .left_only }]
  | rs => rs.map (fun r =>
      { merge_id := l.merge_id, left := some l, right := some r,
        merge_ind := .both })

/-- Model of `tl1_df.merge(df2, how='outer', on='merge_id',
indicator='merge_ind')` (line 531): matched pairs and left-only rows in left
order, then the unmatched right rows. -/
def outerMerge (L : List FlaggedRow) (R : List OverrideRow) : List MergedRow :=
  (L.map (fun l => matchRow l R)).flatten ++
    (R.filter (fun r => !(L.any (fun l => l.merge_id == r.merge_id)))).map
      (fun r => { merge_id := r.merge_id, left := none, right := some r,
                  merge_ind := .right_only })

/-- One row of the final output table.  Columns that the outer join leaves
missing (NaN) on one side are modelled as Option.  The final column
projection of line 548 keeps the row contents unchanged; `merge_id` is
retained here as the row's join key. -/
structure OutRow where
  merge_id : Str
  note_id : Str
  nl1 : Option Str
  part_of_speech : Option Str
  tl_defs : Option Str
  answer_lang : Option Str
  tl1 : Option Str
  tl2 : Option Str
  tl_pronun : Option Str
  tl_audio : Str
  tl1_color : Option Str
  chapter : Str
  tl_table_answer : Option Str
  tl_table_prompt : Option Str
  has_table : Str
  no_table : Str
  pronun : Option Str
  notes : Option Str
  Tags : Str
deriving DecidableEq

/-- Lines 535-544 of add.py: `in_df2 = tl1_df.merge_ind != 'left_only'`
followed by the np.where column assignments, one field per assignment. -/
def postMerge (cfg : Cfg) (m : MergedRow) : OutRow :=
  let inDf2 : Bool := !(m.merge_ind == MergeInd.left_only)
  { merge_id := m.merge_id,
    note_id :=
      if inDf2 then (m.right.map (fun r => r.id)).getD []
      else cfg.flag_id_prefix ++ m.merge_id,
    nl1 := m.left.map (fun l => l.nl1),
    part_of_speech := m.left.map (fun l => l.part_of_speech),
    tl_defs := m.left.map (fun l => l.tl_defs),
    answer_lang := m.left.map (fun l => l.answer_lang),
    tl1 := m.left.map (fun l => l.tl1),
    tl2 := m.left.map (fun l => l.tl2),
    tl_pronun := m.left.map (fun l => l.tl_pronun),
    tl_audio :=
      if inDf2 then (m.right.map (fun r => r.o_audio)).getD []
      else (m.left.map (fun l => l.tl_audio)).getD [],
    tl1_color := m.left.map (fun l => l.tl1_color),
    chapter :=
      if inDf2 then (m.right.map (fun r => r.o_chapter)).getD []
      else (m.left.map (fun l => l.chapter)).getD [],
    tl_table_answer := m.right.map (fun r => r.tl_table_answer),
    tl_table_prompt := m.right.map (fun r => r.tl_table_prompt),
    has_table := if inDf2 then "has_table".data else [],
    no_table := if inDf2 then [] else ['Y'],
    pronun := m.right.map (fun r => r.pronun),
    notes := m.right.map (fun r => r.notes),
    Tags :=
      if inDf2 then (m.right.map (fun r => r.o_Tags)).getD []
      else (m.left.map (fun l => l.Tags)).getD [] }

/-- The full override merge step (lines 531-544). -/
def mergeOverride (cfg : Cfg) (L : List FlaggedRow) (R : List OverrideRow) :
    List OutRow :=
  (outerMerge L R).map (postMerge cfg)

/-- Model of `create_tl_additional_output` when an override table is
supplied: synthesize the flagged cards, annotate, then merge. -/
def createTlAdditionalOutput (cfg : Cfg) (rows : List InputRow)
    (ov : List OverrideRow) : Except AddError (List OutRow) :=
  match synthesizeAll cfg rows with
  | .error e => .error e
  | .ok d =>
    match annotateFlagged cfg d with
    | .error e => .error e
    | .ok L => .ok (mergeOverride cfg L ov)

/-- The two non-error outcomes of the tl3 branch of
`_process_tl_override_df`. -/
inductive Tl3Action where
  | buildFromTriplets
  | trimLists
deriving DecidableEq

/-- Lines 248-267 of add.py: the branch on the presence of the prebuilt
expression-list columns.  The first argument states whether the column
`tl3_prompts_list` is present in the override table, the second whether
`tl3_list` is. -/
def processTl3Branch (promptsListPresent tl3ListPresent : Bool) :
    Except AddError Tl3Action :=
  if !promptsListPresent && !tl3ListPresent then .ok .buildFromTriplets
  else if promptsListPresent || tl3ListPresent then .error .conflictingInput
  else .ok .trimLists

/-
Concrete instances used by witnesses and counterexamples.  The headword
resolver deletes the flag character, so flagged and unflagged variants of a
token resolve to the same headword, as the data model requires.
-/

/-- A concrete configuration: flag character °, resolver deletes °. -/
def exCfg : Cfg :=
  { key := fun s => s.filter (fun c => c ≠ '°'), flags := ['°'],
    nl_abbr := ['N'], tl_abbr := ['T'], flag_id_prefix := "HW_".data,
    annotate := fun _ =>
      ⟨"aud".data, "col".data, "999".data, "htag".data⟩ }

/-- Record whose only token is flagged; empty notes. -/
def rowC4a : InputRow :=
  { nl1 := [], part_of_speech := [], tl_notes_list := [], tl_pronun := [],
    tl1_list := ["x°".data], tl2_list := [] }

/-- Record with the same flagged headword as rowC4a but notes that textually
contain the substring 1-colon without a parsed entry for position 1. -/
def rowC4b : InputRow :=
  { nl1 := [], part_of_speech := [], tl_notes_list := ["foo 1: b".data],
    tl_pronun := [], tl1_list := ["x°".data], tl2_list := [] }

/-- Record with a fresh flagged headword; empty notes. -/
def rowC4y : InputRow :=
  { nl1 := [], part_of_speech := [], tl_notes_list := [], tl_pronun := [],
    tl1_list := ["y°".data], tl2_list := [] }

/-- The card synthesized for the flagged token of rowC4a. -/
def cardC4 : CardVal :=
  { merge_id := "x".data, nl1 := [], part_of_speech := [], tl_defs := [],
    answer_lang := "[N]".data, tl1 := "x".data, tl2 := [], tl_pronun := [] }

/-- The card synthesized for the flagged token of rowC4y. -/
def cardC4y : CardVal :=
  { merge_id := "y".data, nl1 := [], part_of_speech := [], tl_defs := [],
    answer_lang := "[N]".data, tl1 := "y".data, tl2 := [], tl_pronun := [] }

/-- Accumulating dictionary already holding the record for headword x. -/
def dC4 : Dict := [("x".data, cardC4)]

/-- Record whose primary list has a flagged and an unflagged variant of the
same headword. -/
def rowC3 : InputRow :=
  { nl1 := [], part_of_speech := [], tl_notes_list := [], tl_pronun := [],
    tl1_list := ["Haus°".data, "Haus".data], tl2_list := [] }

/-- Record with duplicate positional keys in the notes but no flagged token. -/
def rowC6 : InputRow :=
  { nl1 := [], part_of_speech := [],
    tl_notes_list := ["1:x".data, "1:y".data], tl_pronun := [],
    tl1_list := ["a".data], tl2_list := [] }

/-- Record with duplicate positional keys in the notes and a flagged token. -/
def rowC6b : InputRow :=
  { nl1 := [], part_of_speech := [],
    tl_notes_list := ["1:x".data, "1:y".data], tl_pronun := [],
    tl1_list := ["a°".data], tl2_list := [] }

/-- Record whose notes reference entry 1 with target position 0. -/
def rowC7 : InputRow :=
  { nl1 := [], part_of_speech := [], tl_notes_list := ["1=0".data],
    tl_pronun := [], tl1_list := ["x°".data], tl2_list := [] }

/-- The card actually synthesized for the flagged token of rowC7. -/
def cardC7 : CardVal :=
  { merge_id := "x".data, nl1 := [], part_of_speech := [], tl_defs := [],
    answer_lang := "[N|T]".data, tl1 := "x".data, tl2 := [],
    tl_pronun := [] }

/-- Record whose second token is flagged and whose notes reference entry 2
with target position 1. -/
def rowC7w : InputRow :=
  { nl1 := [], part_of_speech := [], tl_notes_list := ["2=1 (pl.)".data],
    tl_pronun := [], tl1_list := ["a°".data, "b°".data], tl2_list := [] }

/-- Record with a flagged token and notes that parse to nothing and contain
no textual reference to position 1. -/
def rowC9 : InputRow :=
  { nl1 := [], part_of_speech := [], tl_notes_list := ["zz".data],
    tl_pronun := [], tl1_list := ["x°".data], tl2_list := [] }

/-- A concrete override-table row with headword x. -/
def ovEx : OverrideRow :=
  { id := "O1".data, merge_id := "x".data, tl_table_answer := "ta".data,
    tl_table_prompt := "tp".data, pronun := "pr".data, notes := "nt".data,
    o_audio := "oa".data, o_chapter := "5".data, o_Tags := "ot".data }

/-- A concrete override-table row with headword z. -/
def ovEx2 : OverrideRow :=
  { id := "O2".data, merge_id := "z".data, tl_table_answer := [],
    tl_table_prompt := [], pronun := [], notes := [],
    o_audio := "oa2".data, o_chapter := "7".data, o_Tags := "ot2".data }

/-- A second override-table row with the same headword as ovEx. -/
def ovDup : OverrideRow :=
  { id := "O3".data, merge_id := "x".data, tl_table_answer := [],
    tl_table_prompt := [], pronun := [], notes := [],
    o_audio := "oa3".data, o_chapter := "9".data, o_Tags := "ot3".data }

/-- A concrete annotated flagged-card row with headword x. -/
def flEx : FlaggedRow :=
  { merge_id := "x".data, nl1 := "house".data, part_of_speech := "n".data,
    tl_defs := [], answer_lang := "[N]".data, tl1 := "x".data, tl2 := [],
    tl_pronun := [], tl_audio := "fa".data, tl1_color := "fc".data,
    chapter := "3".data, Tags := "ft".data }

/-- The annotated flagged-card table produced from dC4 under exCfg. -/
def flC4 : List FlaggedRow :=
  [{ merge_id := "x".data, nl1 := [], part_of_speech := [], tl_defs := [],
     answer_lang := "[N]".data, tl1 := "x".data, tl2 := [], tl_pronun := [],
     tl_audio := "aud".data, tl1_color := "col".data, chapter := "999".data,
     Tags := "htag".data }]

/-- The right-only merged row for ovEx. -/
def mC10 : MergedRow :=
  { merge_id := "x".data, left := none, right := some ovEx,
    merge_ind := .right_only }

/-- The matched merged row pairing flEx with ovEx. -/
def mC2 : MergedRow :=
  { merge_id := "x".data, left := some flEx, right := some ovEx,
    merge_ind := .both }

/-
Helper lemmas about association-list lookup.
-/

theorem lookup_append_some {α β : Type} [BEq α] {k : α} {v : β}
    {d₁ d₂ : List (α × β)} (h : List.lookup k d₁ = some v) :
    List.lookup k (d₁ ++ d₂) = some v := by
  induction d₁ with
  | nil => simp [List.lookup] at h
  | cons p rest ih =>
    rcases p with ⟨a, b⟩
    rw [List.lookup_cons] at h
    rw [show ((a, b) :: rest ++ d₂) = ((a, b) :: (rest ++ d₂)) from rfl,
      List.lookup_cons]
    cases hk : (k == a) with
    | true => rw [hk] at h; simpa [hk] using h
    | false => rw [hk] at h; simpa [hk] using ih h

theorem lookup_none_iff {α β : Type} [BEq α] [LawfulBEq α] {k : α}
    {d : List (α × β)} :
    List.lookup k d = none ↔ k ∉ d.map Prod.fst := by
  induction d with
  | nil => simp [List.lookup]
  | cons p rest ih =>
    rcases p with ⟨a, b⟩
    rw [List.lookup_cons]
    cases hk : (k == a) with
    | true =>
      simp only [hk]
      simp [beq_iff_eq] at hk
      simp [hk]
    | false =>
      simp only [hk]
      have hne : k ≠ a := by
        intro hcon
        subst hcon
        simp at hk
      simp [ih, hne]

/-
Path lemmas for makeNewCardsTok: one lemma per control path of the loop body
of `_make_new_cards`.
-/

theorem tok_unflagged {cfg : Cfg} {excl : List Str} {row : InputRow}
    {d : Dict} {i : Nat} {tok : Str}
    (h : hasFlag cfg.flags (pyStrip tok) = false) :
    makeNewCardsTok cfg excl row d i tok = .ok d := by
  simp [makeNewCardsTok, h]

theorem tok_mastered {cfg : Cfg} {excl : List Str} {row : InputRow}
    {d : Dict} {i : Nat} {tok : Str}
    (hflag : hasFlag cfg.flags (pyStrip tok) = true)
    (h : cfg.key (pyStrip tok) ∈ excl) :
    makeNewCardsTok cfg excl row d i tok = .ok d := by
  simp [makeNewCardsTok, hflag, h]

theorem tok_dd_error {cfg : Cfg} {excl : List Str} {row : InputRow}
    {d : Dict} {i : Nat} {tok : Str} {e : AddError}
    (hflag : hasFlag cfg.flags (pyStrip tok) = true)
    (hexcl : cfg.key (pyStrip tok) ∉ excl)
    (h : toDefDict row.tl_notes_list = .error e) :
    makeNewCardsTok cfg excl row d i tok = .error e := by
  simp [makeNewCardsTok, hflag, hexcl, h]

theorem tok_resolve_error {cfg : Cfg} {excl : List Str} {row : InputRow}
    {d : Dict} {i : Nat} {tok : Str} {dd : DefDict} {e : AddError}
    (hflag : hasFlag cfg.flags (pyStrip tok) = true)
    (hexcl : cfg.key (pyStrip tok) ∉ excl)
    (hdd : toDefDict row.tl_notes_list = .ok dd)
    (hres : resolveDef cfg row.tl1_list row.tl_notes_list i dd = .error e) :
    makeNewCardsTok cfg excl row d i tok = .error e := by
  simp [makeNewCardsTok, hflag, hexcl, hdd, hres]

theorem tok_resolve_ok_empty {cfg : Cfg} {excl : List Str} {row : InputRow}
    {d : Dict} {i : Nat} {tok : Str} {dd : DefDict} {a defn : Str}
    (hflag : hasFlag cfg.flags (pyStrip tok) = true)
    (hexcl : cfg.key (pyStrip tok) ∉ excl)
    (hdd : toDefDict row.tl_notes_list = .ok dd)
    (hres : resolveDef cfg row.tl1_list row.tl_notes_list i dd = .ok (a, defn))
    (hemp : cfg.key (pyStrip tok) = []) :
    makeNewCardsTok cfg excl row d i tok = .error .emptyHeadword := by
  simp only [makeNewCardsTok, hflag, hexcl, hdd, hres, if_true]
  simp [hemp, hexcl]

theorem tok_resolve_ok_dup {cfg : Cfg} {excl : List Str} {row : InputRow}
    {d : Dict} {i : Nat} {tok : Str} {dd : DefDict} {a defn : Str}
    (hflag : hasFlag cfg.flags (pyStrip tok) = true)
    (hexcl : cfg.key (pyStrip tok) ∉ excl)
    (hdd : toDefDict row.tl_notes_list = .ok dd)
    (hres : resolveDef cfg row.tl1_list row.tl_notes_list i dd = .ok (a, defn))
    (hne : cfg.key (pyStrip tok) ≠ [])
    (hdup : (List.lookup (cfg.key (pyStrip tok)) d).isSome = true) :
    makeNewCardsTok cfg excl row d i tok = .ok d := by
  simp [makeNewCardsTok, hflag, hexcl, hdd, hres, hne, hdup]

theorem tok_resolve_ok_fresh {cfg : Cfg} {excl : List Str} {row : InputRow}
    {d : Dict} {i : Nat} {tok : Str} {dd : DefDict} {a defn : Str}
    (hflag : hasFlag cfg.flags (pyStrip tok) = true)
    (hexcl : cfg.key (pyStrip tok) ∉ excl)
    (hdd : toDefDict row.tl_notes_list = .ok dd)
    (hres : resolveDef cfg row.tl1_list row.tl_notes_list i dd = .ok (a, defn))
    (hne : cfg.key (pyStrip tok) ≠ [])
    (hfresh : List.lookup (cfg.key (pyStrip tok)) d = none) :
    makeNewCardsTok cfg excl row d i tok =
      .ok (d ++ [(cfg.key (pyStrip tok),
        { merge_id := cfg.key (pyStrip tok), nl1 := row.nl1,
          part_of_speech := row.part_of_speech, tl_defs := defn,
          answer_lang := a, tl1 := stripFlags cfg.flags (pyStrip tok),
          tl2 := pyStrip (row.tl2_list.getD i []),
          tl_pronun := row.tl_pronun })]) := by
  simp [makeNewCardsTok, hflag, hexcl, hdd, hres, hne, hfresh]

/--
C9: for a flagged, non-mastered token at 0-based index i whose parsed notes
mapping has no entry for key i+1, processing the token fails with the
misformatted-reference error exactly when the semicolon-joined raw notes
text contains the substring "{i+1}:" or "{i+1}=" anywhere; when it does not,
and the headword is fresh and nonempty, the synthesized card carries the
native-language-only source tag and the empty definition.
-/
theorem c9_absent_key :
    ∀ (cfg : Cfg) (excl : List Str) (row : InputRow) (d : Dict) (i : Nat)
      (dd : DefDict) (tok : Str),
      hasFlag cfg.flags (pyStrip tok) = true →
      cfg.key (pyStrip tok) ∉ excl →
      toDefDict row.tl_notes_list = .ok dd →
      List.lookup (i + 1) dd = none →
      ((makeNewCardsTok cfg excl row d i tok = .error .misformattedRef ↔
        (containsSub (natChars (i + 1) ++ [':'])
            (joinSemi row.tl_notes_list) = true ∨
         containsSub (natChars (i + 1) ++ ['='])
            (joinSemi row.tl_notes_list) = true)) ∧
       (containsSub (natChars (i + 1) ++ [':'])
            (joinSemi row.tl_notes_list) = false →
        containsSub (natChars (i + 1) ++ ['='])
            (joinSemi row.tl_notes_list) = false →
        cfg.key (pyStrip tok) ≠ [] →
        List.lookup (cfg.key (pyStrip tok)) d = none →
        makeNewCardsTok cfg excl row d i tok =
          .ok (d ++ [(cfg.key (pyStrip tok),
            { merge_id := cfg.key (pyStrip tok), nl1 := row.nl1,
              part_of_speech := row.part_of_speech, tl_defs := [],
              answer_lang := '[' :: cfg.nl_abbr ++ [']'],
              tl1 := stripFlags cfg.flags (pyStrip tok),
              tl2 := pyStrip (row.tl2_list.getD i []),
              tl_pronun := row.tl_pronun })]))) := by
  intro cfg excl row d i dd tok hflag hexcl hdd hlook
  constructor
  · constructor
    · intro herr
      cases hA : containsSub (natChars (i + 1) ++ [':'])
          (joinSemi row.tl_notes_list) with
      | true => exact Or.inl rfl
      | false =>
        cases hB : containsSub (natChars (i + 1) ++ ['='])
            (joinSemi row.tl_notes_list) with
        | true => exact Or.inr rfl
        | false =>
          exfalso
          have hres : resolveDef cfg row.tl1_list row.tl_notes_list i dd =
              .ok ('[' :: cfg.nl_abbr ++ [']'], []) := by
            simp [resolveDef, hlook, hA, hB]
          by_cases hemp : cfg.key (pyStrip tok) = []
          · rw [tok_resolve_ok_empty hflag hexcl hdd hres hemp] at herr
            simp at herr
          · cases hdup : (List.lookup (cfg.key (pyStrip tok)) d) with
            | some v =>
              rw [tok_resolve_ok_dup hflag hexcl hdd hres hemp
                (by simp [hdup])] at herr
              simp at herr
            | none =>
              rw [tok_resolve_ok_fresh hflag hexcl hdd hres hemp hdup]
                at herr
              simp at herr
    · intro hor
      have hres : resolveDef cfg row.tl1_list row.tl_notes_list i dd =
          .error .misformattedRef := by
        rcases hor with h | h <;> simp [resolveDef, hlook, h]
      exact tok_resolve_error hflag hexcl hdd hres
  · intro hA hB hne hfresh
    have hres : resolveDef cfg row.tl1_list row.tl_notes_list i dd =
        .ok ('[' :: cfg.nl_abbr ++ [']'], []) := by
      simp [resolveDef, hlook, hA, hB]
    exact tok_resolve_ok_fresh hflag hexcl hdd hres hne hfresh

/--
C9 witness: the concrete flagged token "x°" with notes ["zz"], which parse
to the empty mapping and contain no textual reference to position 1.
-/
theorem c9_witness :
    makeNewCardsTok exCfg [] rowC9 [] 0 "x°".data =
      .ok [("x".data,
        { merge_id := "x".data, nl1 := rowC9.nl1,
          part_of_speech := rowC9.part_of_speech, tl_defs := [],
          answer_lang := '[' :: exCfg.nl_abbr ++ [']'],
          tl1 := stripFlags exCfg.flags (pyStrip "x°".data),
          tl2 := pyStrip (rowC9.tl2_list.getD 0 []),
          tl_pronun := rowC9.tl_pronun })] := by
  have h := (c9_absent_key exCfg [] rowC9 [] 0 [] "x°".data (by decide)
    (by simp) rfl rfl).2 rfl rfl (by decide) rfl
  simpa using h

/--
C7 (amended): for a flagged, non-mastered token at 0-based index i with a
parsed notes entry at key i+1: when the stored target position m is nonzero
(and m-1 is a valid index of the primary list, and the headword fresh and
nonempty) the synthesized card's source tag is the target-language marker
and its definition is the trimmed primary-list token at position m-1, a
space, and the entry's free text; when the target position is unset (None)
— or stored as 0, which the code's truthiness test treats identically — the
source tag is the native-or-target marker and the definition is the free
text alone.
-/
theorem c7_set_target :
    ∀ (cfg : Cfg) (excl : List Str) (row : InputRow) (d : Dict) (i : Nat)
      (dd : DefDict) (tok : Str),
      hasFlag cfg.flags (pyStrip tok) = true →
      cfg.key (pyStrip tok) ∉ excl →
      toDefDict row.tl_notes_list = .ok dd →
      ((∀ (m : Nat) (text t : Str),
        List.lookup (i + 1) dd = some (some m, text) → m ≠ 0 →
        row.tl1_list.get? (m - 1) = some t →
        cfg.key (pyStrip tok) ≠ [] →
        List.lookup (cfg.key (pyStrip tok)) d = none →
        makeNewCardsTok cfg excl row d i tok =
          .ok (d ++ [(cfg.key (pyStrip tok),
            { merge_id := cfg.key (pyStrip tok), nl1 := row.nl1,
              part_of_speech := row.part_of_speech,
              tl_defs := pyStrip t ++ ' ' :: text,
              answer_lang := '[' :: cfg.tl_abbr ++ [']'],
              tl1 := stripFlags cfg.flags (pyStrip tok),
              tl2 := pyStrip (row.tl2_list.getD i []),
              tl_pronun := row.tl_pronun })])) ∧
       (∀ text : Str,
        List.lookup (i + 1) dd = some (none, text) →
        cfg.key (pyStrip tok) ≠ [] →
        List.lookup (cfg.key (pyStrip tok)) d = none →
        makeNewCardsTok cfg excl row d i tok =
          .ok (d ++ [(cfg.key (pyStrip tok),
            { merge_id := cfg.key (pyStrip tok), nl1 := row.nl1,
              part_of_speech := row.part_of_speech, tl_defs := text,
              answer_lang :=
                '[' :: cfg.nl_abbr ++ '|' :: cfg.tl_abbr ++ [']'],
              tl1 := stripFlags cfg.flags (pyStrip tok),
              tl2 := pyStrip (row.tl2_list.getD i []),
              tl_pronun := row.tl_pronun })])) ∧
       (∀ text : Str,
        List.lookup (i + 1) dd = some (some 0, text) →
        cfg.key (pyStrip tok) ≠ [] →
        List.lookup (cfg.key (pyStrip tok)) d = none →
        makeNewCardsTok cfg excl row d i tok =
          .ok (d ++ [(cfg.key (pyStrip tok),
            { merge_id := cfg.key (pyStrip tok), nl1 := row.nl1,
              part_of_speech := row.part_of_speech, tl_defs := text,
              answer_lang :=
                '[' :: cfg.nl_abbr ++ '|' :: cfg.tl_abbr ++ [']'],
              tl1 := stripFlags cfg.flags (pyStrip tok),
              tl2 := pyStrip (row.tl2_list.getD i []),
              tl_pronun := row.tl_pronun })]))) := by
  intro cfg excl row d i dd tok hflag hexcl hdd
  refine ⟨?_, ?_, ?_⟩
  · intro m text t hlook hm hget hne hfresh
    have hget' : row.tl1_list[m - 1]? = some t := by
      simpa [List.get?_eq_getElem?] using hget
    have hres : resolveDef cfg row.tl1_list row.tl_notes_list i dd =
        .ok ('[' :: cfg.tl_abbr ++ [']'], pyStrip t ++ ' ' :: text) := by
      simp [resolveDef, hlook, hm, hget']
    exact tok_resolve_ok_fresh hflag hexcl hdd hres hne hfresh
  · intro text hlook hne hfresh
    have hres : resolveDef cfg row.tl1_list row.tl_notes_list i dd =
        .ok ('[' :: cfg.nl_abbr ++ '|' :: cfg.tl_abbr ++ [']'], text) := by
      simp [resolveDef, hlook]
    exact tok_resolve_ok_fresh hflag hexcl hdd hres hne hfresh
  · intro text hlook hne hfresh
    have hres : resolveDef cfg row.tl1_list row.tl_notes_list i dd =
        .ok ('[' :: cfg.nl_abbr ++ '|' :: cfg.tl_abbr ++ [']'], text) := by
      simp [resolveDef, hlook]
    exact tok_resolve_ok_fresh hflag hexcl hdd hres hne hfresh

/--
C7 counterexample: the notes token "1=0" stores entry (1, (some 0, "")), a
present key with a set (non-None) target position; the claim then requires
the target-language source tag, but the code's truthiness test sends target
position 0 down the unset branch, producing the native-or-target marker and
the free text alone.
-/
theorem c7_counterexample :
    toDefDict rowC7.tl_notes_list = .ok [(1, (some 0, []))] ∧
    synthesizeAll exCfg [rowC7] = .ok [("x".data, cardC7)] ∧
    cardC7.answer_lang = '[' :: exCfg.nl_abbr ++ '|' :: exCfg.tl_abbr ++ [']'] ∧
    cardC7.answer_lang ≠ '[' :: exCfg.tl_abbr ++ [']'] ∧
    cardC7.tl_defs = [] :=
  ⟨rfl, rfl, rfl, by decide, rfl⟩

/--
C7 witness: the concrete flagged token "b°" at index 1 with notes
["2=1 (pl.)"]: position 2 references target position 1, so the definition is
the trimmed first token "a°", a space, and "(pl.)", with the
target-language source tag.
-/
theorem c7_witness :
    makeNewCardsTok exCfg [] rowC7w [] 1 "b°".data =
      .ok [("b".data,
        { merge_id := "b".data, nl1 := rowC7w.nl1,
          part_of_speech := rowC7w.part_of_speech,
          tl_defs := pyStrip "a°".data ++ ' ' :: "(pl.)".data,
          answer_lang := '[' :: exCfg.tl_abbr ++ [']'],
          tl1 := stripFlags exCfg.flags (pyStrip "b°".data),
          tl2 := pyStrip (rowC7w.tl2_list.getD 1 []),
          tl_pronun := rowC7w.tl_pronun })] := by
  have h := (c7_set_target exCfg [] rowC7w [] 1
      [(2, (some 1, "(pl.)".data))] "b°".data (by decide) (by simp)
      rfl).1 1 "(pl.)".data "a°".data rfl (by decide) rfl (by decide) rfl
  simpa using h

/-
Membership lemmas for the mastered-headword set.
-/

theorem mem_setAdd {s : List Str} {x y : Str} :
    y ∈ setAdd s x ↔ y ∈ s ∨ y = x := by
  unfold setAdd
  split
  · rename_i hx
    constructor
    · exact fun h => Or.inl h
    · rintro (h | rfl)
      · exact h
      · exact hx
  · simp [List.mem_append]

theorem mem_addUnflaggedTok {cfg : Cfg} {s : List Str} {tok y : Str} :
    y ∈ addUnflaggedTok cfg s tok ↔
      y ∈ s ∨ (cfg.key (pyStrip tok) = y ∧ y ≠ [] ∧
        hasFlag cfg.flags (pyStrip tok) = false) := by
  simp only [addUnflaggedTok]
  split
  · rename_i hcond
    rw [mem_setAdd]
    constructor
    · rintro (h | rfl)
      · exact Or.inl h
      · exact Or.inr ⟨rfl, hcond.1, hcond.2⟩
    · rintro (h | ⟨hk, _, _⟩)
      · exact Or.inl h
      · exact Or.inr hk.symm
  · rename_i hcond
    constructor
    · exact fun h => Or.inl h
    · rintro (h | ⟨hk, hy, hf⟩)
      · exact h
      · exact absurd ⟨hk ▸ hy, hf⟩ hcond

theorem mem_addUnflagged {cfg : Cfg} (col : List Str) :
    ∀ (s : List Str) (y : Str),
      y ∈ addUnflagged cfg s col ↔
        y ∈ s ∨ ∃ tok ∈ col, cfg.key (pyStrip tok) = y ∧ y ≠ [] ∧
          hasFlag cfg.flags (pyStrip tok) = false := by
  induction col with
  | nil => simp [addUnflagged]
  | cons t rest ih =>
    intro s y
    have hstep : addUnflagged cfg s (t :: rest) =
        addUnflagged cfg (addUnflaggedTok cfg s t) rest := rfl
    rw [hstep, ih, mem_addUnflaggedTok]
    constructor
    · rintro ((h | h) | ⟨tok, htok, h⟩)
      · exact Or.inl h
      · exact Or.inr ⟨t, List.mem_cons_self t rest, h⟩
      · exact Or.inr ⟨tok, List.mem_cons_of_mem t htok, h⟩
    · rintro (h | ⟨tok, htok, h⟩)
      · exact Or.inl (Or.inl h)
      · rcases List.mem_cons.mp htok with rfl | htok'
        · exact Or.inl (Or.inr h)
        · exact Or.inr ⟨tok, htok', h⟩

theorem mem_masteredList {cfg : Cfg} {rows : List InputRow} {y : Str} :
    y ∈ masteredList cfg rows ↔
      ∃ row ∈ rows, ∃ tok ∈ row.tl1_list,
        cfg.key (pyStrip tok) = y ∧ y ≠ [] ∧
        hasFlag cfg.flags (pyStrip tok) = false := by
  have haux : ∀ (rs : List InputRow) (s : List Str),
      y ∈ rs.foldl (fun s row => addUnflagged cfg s row.tl1_list) s ↔
        y ∈ s ∨ ∃ row ∈ rs, ∃ tok ∈ row.tl1_list,
          cfg.key (pyStrip tok) = y ∧ y ≠ [] ∧
          hasFlag cfg.flags (pyStrip tok) = false := by
    intro rs
    induction rs with
    | nil => simp
    | cons r rest ih =>
      intro s
      have hstep : (r :: rest).foldl
          (fun s row => addUnflagged cfg s row.tl1_list) s =
          rest.foldl (fun s row => addUnflagged cfg s row.tl1_list)
            (addUnflagged cfg s r.tl1_list) := rfl
      rw [hstep, ih, mem_addUnflagged]
      constructor
      · rintro ((h | ⟨tok, htok, h⟩) | ⟨row, hrow, hrest⟩)
        · exact Or.inl h
        · exact Or.inr ⟨r, List.mem_cons_self r rest, tok, htok, h⟩
        · exact Or.inr ⟨row, List.mem_cons_of_mem r hrow, hrest⟩
      · rintro (h | ⟨row, hrow, hrest⟩)
        · exact Or.inl (Or.inl h)
        · rcases List.mem_cons.mp hrow with rfl | hrow'
          · exact Or.inl (Or.inr hrest)
          · exact Or.inr ⟨row, hrow', hrest⟩
  rw [masteredList, haux]
  simp

/--
C3: the mastered set contains exactly the headwords of tokens, across every
primary-answer list of every input record, that carry no flag character and
whose headword is nonempty; and a flagged token whose headword lies in that
set produces no flagged-card record (the accumulating dictionary is returned
unchanged).
-/
theorem c3_mastered_set :
    ∀ (cfg : Cfg) (rows : List InputRow),
      (∀ hw : Str, hw ∈ masteredList cfg rows ↔
        ∃ row ∈ rows, ∃ tok ∈ row.tl1_list,
          cfg.key (pyStrip tok) = hw ∧ hw ≠ [] ∧
          hasFlag cfg.flags (pyStrip tok) = false) ∧
      (∀ (row : InputRow) (d : Dict) (i : Nat) (tok : Str),
        hasFlag cfg.flags (pyStrip tok) = true →
        cfg.key (pyStrip tok) ∈ masteredList cfg rows →
        makeNewCardsTok cfg (masteredList cfg rows) row d i tok = .ok d) := by
  intro cfg rows
  constructor
  · intro hw
    exact mem_masteredList
  · intro row d i tok hflag hmem
    exact tok_mastered hflag hmem

/--
C3 witness: in the record with tokens ["Haus°", "Haus"], the unflagged
second token masters headword "Haus", so the flagged first token produces
no record.
-/
theorem c3_witness :
    makeNewCardsTok exCfg (masteredList exCfg [rowC3]) rowC3 [] 0
      "Haus°".data = .ok [] :=
  (c3_mastered_set exCfg [rowC3]).2 rowC3 [] 0 "Haus°".data (by decide)
    (by decide)

/--
C4 (amended): processing a token never alters or removes an entry already
stored in the accumulating dictionary, and a token whose headword is already
present and whose processing completes without error is an exact no-op — so
the stored record keeps exactly the fields of the first writer.  (A later
attempt for a stored headword can still fail the per-token notes checks,
which run before the first-writer-wins test; determinism across runs is
immediate because the embedding is a pure function of the input.)
-/
theorem c4_first_writer :
    ∀ (cfg : Cfg) (excl : List Str) (row : InputRow) (d : Dict) (i : Nat)
      (tok : Str) (d' : Dict),
      makeNewCardsTok cfg excl row d i tok = .ok d' →
      ((∀ (k : Str) (v : CardVal), List.lookup k d = some v →
          List.lookup k d' = some v) ∧
       ((List.lookup (cfg.key (pyStrip tok)) d).isSome = true → d' = d)) := by
  intro cfg excl row d i tok d' h
  cases hflag : hasFlag cfg.flags (pyStrip tok) with
  | false =>
    rw [tok_unflagged hflag] at h
    simp only [Except.ok.injEq] at h
    subst h
    exact ⟨fun k v hv => hv, fun _ => rfl⟩
  | true =>
    by_cases hexcl : cfg.key (pyStrip tok) ∈ excl
    · rw [tok_mastered hflag hexcl] at h
      simp only [Except.ok.injEq] at h
      subst h
      exact ⟨fun k v hv => hv, fun _ => rfl⟩
    · cases hdd : toDefDict row.tl_notes_list with
      | error e =>
        rw [tok_dd_error hflag hexcl hdd] at h
        simp at h
      | ok dd =>
        cases hres : resolveDef cfg row.tl1_list row.tl_notes_list i dd with
        | error e =>
          rw [tok_resolve_error hflag hexcl hdd hres] at h
          simp at h
        | ok p =>
          rcases p with ⟨a, defn⟩
          by_cases hemp : cfg.key (pyStrip tok) = []
          · rw [tok_resolve_ok_empty hflag hexcl hdd hres hemp] at h
            simp at h
          · cases hdup : List.lookup (cfg.key (pyStrip tok)) d with
            | some v =>
              rw [tok_resolve_ok_dup hflag hexcl hdd hres hemp
                (by simp [hdup])] at h
              simp only [Except.ok.injEq] at h
              subst h
              exact ⟨fun k v hv => hv, fun _ => rfl⟩
            | none =>
              rw [tok_resolve_ok_fresh hflag hexcl hdd hres hemp hdup] at h
              simp only [Except.ok.injEq] at h
              subst h
              refine ⟨fun k v hv => lookup_append_some hv, fun hs => ?_⟩
              simp [hdup] at hs

/--
C4 counterexample: the two records both carry the flagged token "x°"
(same headword "x"); the first synthesizes and stores the card, but
processing the second raises the misformatted-reference error from its own
notes before reaching the first-writer-wins test, so a later synthesis
attempt for an already-stored headword is not always error-free.
-/
theorem c4_counterexample :
    synthesizeAll exCfg [rowC4a] = .ok [("x".data, cardC4)] ∧
    synthesizeAll exCfg [rowC4a, rowC4b] = .error .misformattedRef ∧
    hasFlag exCfg.flags (pyStrip "x°".data) = true ∧
    exCfg.key (pyStrip "x°".data) = "x".data :=
  ⟨rfl, rfl, by decide, by decide⟩

/--
C4 witness: processing the fresh flagged token "y°" against a dictionary
already holding the record for headword "x" preserves that stored record
verbatim.
-/
theorem c4_witness :
    List.lookup "x".data (dC4 ++ [("y".data, cardC4y)]) = some cardC4 := by
  have h := c4_first_writer exCfg [] rowC4y dC4 0 "y°".data
    (dC4 ++ [("y".data, cardC4y)]) rfl
  exact h.1 "x".data cardC4 rfl

/--
Helper for C6: when parsing the record's notes fails, the token loop fails
with that same error exactly when the list contains a flagged token whose
headword is not excluded.
-/
theorem makeCardsAux_dup {cfg : Cfg} {excl : List Str} {row : InputRow}
    (hdup : toDefDict row.tl_notes_list = .error .duplicateRef) :
    ∀ (l : List Str) (i : Nat) (d : Dict),
      (makeCardsAux cfg excl row i l d = .error .duplicateRef ↔
        ∃ tok ∈ l, hasFlag cfg.flags (pyStrip tok) = true ∧
          cfg.key (pyStrip tok) ∉ excl) := by
  intro l
  induction l with
  | nil => intro i d; simp [makeCardsAux]
  | cons t rest ih =>
    intro i d
    cases hflag : hasFlag cfg.flags (pyStrip t) with
    | false =>
      have hstep : makeNewCardsTok cfg excl row d i t = .ok d :=
        tok_unflagged hflag
      simp only [makeCardsAux, hstep, ih]
      constructor
      · rintro ⟨tok, htok, hc⟩
        exact ⟨tok, List.mem_cons_of_mem t htok, hc⟩
      · rintro ⟨tok, htok, hc⟩
        rcases List.mem_cons.mp htok with rfl | htok'
        · rw [hflag] at hc
          simp at hc
        · exact ⟨tok, htok', hc⟩
    | true =>
      by_cases hexcl : cfg.key (pyStrip t) ∈ excl
      · have hstep : makeNewCardsTok cfg excl row d i t = .ok d :=
          tok_mastered hflag hexcl
        simp only [makeCardsAux, hstep, ih]
        constructor
        · rintro ⟨tok, htok, hc⟩
          exact ⟨tok, List.mem_cons_of_mem t htok, hc⟩
        · rintro ⟨tok, htok, hc⟩
          rcases List.mem_cons.mp htok with rfl | htok'
          · exact absurd hexcl hc.2
          · exact ⟨tok, htok', hc⟩
      · have hstep : makeNewCardsTok cfg excl row d i t =
            .error .duplicateRef :=
          tok_dd_error hflag hexcl hdup
        simp only [makeCardsAux, hstep]
        constructor
        · intro _
          exact ⟨t, List.mem_cons_self t rest, hflag, hexcl⟩
        · intro _
          trivial

/--
Helper for C6: a record with a duplicate positional key and a flagged,
non-excluded token aborts the whole batch fold.
-/
theorem foldRows_dup {cfg : Cfg} {excl : List Str} :
    ∀ (rs : List InputRow) (d : Dict),
      (∃ row ∈ rs, toDefDict row.tl_notes_list = .error .duplicateRef ∧
        ∃ tok ∈ row.tl1_list, hasFlag cfg.flags (pyStrip tok) = true ∧
          cfg.key (pyStrip tok) ∉ excl) →
      ∃ e, foldRows cfg excl rs d = .error e := by
  intro rs
  induction rs with
  | nil => intro d h; simp at h
  | cons r rest ih =>
    intro d h
    rcases h with ⟨row, hrow, hdup, hex⟩
    cases hmk : makeNewCards cfg excl d r with
    | error e => exact ⟨e, by simp [foldRows, hmk]⟩
    | ok d' =>
      rcases List.mem_cons.mp hrow with rfl | hrow'
      · have habs := (makeCardsAux_dup hdup row.tl1_list 0 d).mpr hex
        rw [show makeNewCards cfg excl d row =
          makeCardsAux cfg excl row 0 row.tl1_list d from rfl] at hmk
        rw [habs] at hmk
        simp at hmk
      · rcases ih d' ⟨row, hrow', hdup, hex⟩ with ⟨e, he⟩
        exact ⟨e, by simp [foldRows, hmk, he]⟩

/--
C6 (amended): when a record's notes field produces the same positional key
twice, processing that record fails with the duplicate-reference error if
and only if the record contains at least one flagged token whose headword is
not mastered — the notes are parsed per flagged non-mastered token, not
unconditionally per record — and any such record anywhere in the batch
aborts the whole batch with an error.
-/
theorem c6_duplicate_ref :
    (∀ (cfg : Cfg) (excl : List Str) (row : InputRow) (d : Dict),
      toDefDict row.tl_notes_list = .error .duplicateRef →
      (makeNewCards cfg excl d row = .error .duplicateRef ↔
        ∃ tok ∈ row.tl1_list, hasFlag cfg.flags (pyStrip tok) = true ∧
          cfg.key (pyStrip tok) ∉ excl)) ∧
    (∀ (cfg : Cfg) (rows : List InputRow),
      (∃ row ∈ rows, toDefDict row.tl_notes_list = .error .duplicateRef ∧
        ∃ tok ∈ row.tl1_list, hasFlag cfg.flags (pyStrip tok) = true ∧
          cfg.key (pyStrip tok) ∉ masteredList cfg rows) →
      ∃ e, synthesizeAll cfg rows = .error e) := by
  constructor
  · intro cfg excl row d hdup
    exact makeCardsAux_dup hdup row.tl1_list 0 d
  · intro cfg rows h
    exact foldRows_dup rows [] h

/--
C6 counterexample: a record whose notes produce key 1 twice but whose only
token is unflagged is processed without error (its notes are never parsed),
contradicting the claim's "regardless of which of its tokens are flagged or
mastered".
-/
theorem c6_counterexample :
    synthesizeAll exCfg [rowC6] = .ok [] ∧
    toDefDict rowC6.tl_notes_list = .error .duplicateRef :=
  ⟨rfl, rfl⟩

/--
C6 witness: the same duplicate notes with a flagged token do raise the
duplicate-reference error.
-/
theorem c6_witness :
    makeNewCards exCfg [] [] rowC6b = .error .duplicateRef :=
  (c6_duplicate_ref.1 exCfg [] rowC6b [] rfl).mpr
    ⟨"a°".data, by decide, by decide, by simp⟩

/-
Lemmas about the outer merge.
-/

theorem postMerge_merge_id (cfg : Cfg) (m : MergedRow) :
    (postMerge cfg m).merge_id = m.merge_id := rfl

theorem matchRow_mem_merge_id {l : FlaggedRow} {R : List OverrideRow}
    {m : MergedRow} (h : m ∈ matchRow l R) : m.merge_id = l.merge_id := by
  unfold matchRow at h
  split at h
  · simp at h
    subst h
    rfl
  · rcases List.mem_map.mp h with ⟨r', _, rfl⟩
    rfl

theorem mem_outerMerge {L : List FlaggedRow} {R : List OverrideRow}
    {m : MergedRow} :
    m ∈ outerMerge L R ↔
      (∃ l ∈ L, m ∈ matchRow l R) ∨
      (∃ r ∈ R, (L.any (fun l => l.merge_id == r.merge_id)) = false ∧
        m = { merge_id := r.merge_id, left := none, right := some r,
              merge_ind := .right_only }) := by
  unfold outerMerge
  rw [List.mem_append]
  constructor
  · rintro (h | h)
    · rcases List.mem_flatten.mp h with ⟨s, hs, hms⟩
      rcases List.mem_map.mp hs with ⟨l, hl, rfl⟩
      exact Or.inl ⟨l, hl, hms⟩
    · rcases List.mem_map.mp h with ⟨r, hr, rfl⟩
      rcases List.mem_filter.mp hr with ⟨hrR, hany⟩
      refine Or.inr ⟨r, hrR, ?_, rfl⟩
      simpa using hany
  · rintro (⟨l, hl, hml⟩ | ⟨r, hr, hany, rfl⟩)
    · exact Or.inl (List.mem_flatten.mpr
        ⟨matchRow l R, List.mem_map.mpr ⟨l, hl, rfl⟩, hml⟩)
    · refine Or.inr (List.mem_map.mpr ⟨r, List.mem_filter.mpr ⟨hr, ?_⟩, rfl⟩)
      simpa using hany

/--
C10: every merged output row whose headword appears in the override table
but matches no flagged card is marked has_table = "has_table" and
no_table = "" — the presence-marker pair records membership in the override
table, exactly as for rows matched in both sources.
-/
theorem c10_override_only_markers :
    ∀ (cfg : Cfg) (L : List FlaggedRow) (R : List OverrideRow)
      (r : OverrideRow) (out : OutRow),
      r ∈ R → (∀ l ∈ L, l.merge_id ≠ r.merge_id) →
      out ∈ mergeOverride cfg L R → out.merge_id = r.merge_id →
      out.has_table = "has_table".data ∧ out.no_table = [] := by
  intro cfg L R r out hr hnol hout hkey
  rcases List.mem_map.mp hout with ⟨m, hm, rfl⟩
  rw [postMerge_merge_id] at hkey
  rcases mem_outerMerge.mp hm with ⟨l, hl, hml⟩ | ⟨r', _, _, rfl⟩
  · have h1 : l.merge_id = r.merge_id :=
      (matchRow_mem_merge_id hml).symm.trans hkey
    exact absurd h1 (hnol l hl)
  · exact ⟨rfl, rfl⟩

/--
C10 witness: the concrete override row with headword "x" and an empty
flagged-card table.
-/
theorem c10_witness :
    (postMerge exCfg mC10).has_table = "has_table".data ∧
    (postMerge exCfg mC10).no_table = [] :=
  c10_override_only_markers exCfg [] [ovEx] ovEx (postMerge exCfg mC10)
    (List.mem_singleton.mpr rfl) (by intro l hl; cases hl)
    (by
      rw [show mergeOverride exCfg [] [ovEx] = [postMerge exCfg mC10] from
        rfl]
      exact List.mem_singleton.mpr rfl)
    rfl

/-
Filter lemmas for the join under key uniqueness.
-/

theorem filter_key_nil {R : List OverrideRow} {c : Str}
    (h : ∀ r ∈ R, r.merge_id ≠ c) :
    R.filter (fun x => x.merge_id == c) = [] :=
  List.filter_eq_nil_iff.mpr (fun r hr => by simpa using h r hr)

theorem filter_key_single {R : List OverrideRow}
    (hR : (R.map (fun r => r.merge_id)).Nodup) {r : OverrideRow} {c : Str}
    (hr : r ∈ R) (hc : r.merge_id = c) :
    R.filter (fun x => x.merge_id == c) = [r] := by
  induction R with
  | nil => cases hr
  | cons a rest ih =>
    rw [List.map_cons, List.nodup_cons] at hR
    rcases List.mem_cons.mp hr with rfl | hr'
    · have hpa : (r.merge_id == c) = true := by simp [hc]
      rw [List.filter_cons, if_pos hpa]
      have hnil : rest.filter (fun x => x.merge_id == c) = [] := by
        refine List.filter_eq_nil_iff.mpr (fun x hx hbeq => ?_)
        have hxc : x.merge_id = c := by simpa using hbeq
        exact hR.1 (List.mem_map.mpr ⟨x, hx, by rw [hxc, hc]⟩)
      rw [hnil]
    · have hpa : (a.merge_id == c) = false := by
        cases hab : (a.merge_id == c) with
        | false => rfl
        | true =>
          exfalso
          have hac : a.merge_id = c := by simpa using hab
          exact hR.1 (List.mem_map.mpr ⟨r, hr', by rw [hc, hac]⟩)
      rw [List.filter_cons, if_neg (by simp [hpa])]
      exact ih hR.2 hr'

/--
C2: for a headword present in both the flagged-card table and the override
table (keys unique on both sides), every merged output row with that
headword takes the override's audio, chapter, and tags, its identifier is
the override's external id, and it is marked has_table = "has_table",
no_table = ""; for a headword present only in the flagged-card table, the
flagged card's audio/chapter/tags are kept, the identifier is the
configured prefix plus the headword, and the markers are has_table = "",
no_table = "Y".
-/
theorem c2_override_precedence :
    ∀ (cfg : Cfg) (L : List FlaggedRow) (R : List OverrideRow),
      (L.map (fun l => l.merge_id)).Nodup →
      (R.map (fun r => r.merge_id)).Nodup →
      ((∀ (l : FlaggedRow) (r : OverrideRow) (out : OutRow),
          l ∈ L → r ∈ R → r.merge_id = l.merge_id →
          out ∈ mergeOverride cfg L R → out.merge_id = l.merge_id →
          out.tl_audio = r.o_audio ∧ out.chapter = r.o_chapter ∧
          out.Tags = r.o_Tags ∧ out.note_id = r.id ∧
          out.has_table = "has_table".data ∧ out.no_table = []) ∧
       (∀ (l : FlaggedRow) (out : OutRow),
          l ∈ L → (∀ r ∈ R, r.merge_id ≠ l.merge_id) →
          out ∈ mergeOverride cfg L R → out.merge_id = l.merge_id →
          out.tl_audio = l.tl_audio ∧ out.chapter = l.chapter ∧
          out.Tags = l.Tags ∧
          out.note_id = cfg.flag_id_prefix ++ l.merge_id ∧
          out.has_table = [] ∧ out.no_table = ['Y'])) := by
  intro cfg L R hL hR
  constructor
  · intro l r out hl hr hrl hout hkey
    rcases List.mem_map.mp hout with ⟨m, hm, rfl⟩
    rw [postMerge_merge_id] at hkey
    rcases mem_outerMerge.mp hm with ⟨l', hl', hml'⟩ | ⟨r', _, hany, rfl⟩
    · have hll' : l'.merge_id = l.merge_id :=
        (matchRow_mem_merge_id hml').symm.trans hkey
      have hfil : R.filter (fun x => x.merge_id == l'.merge_id) = [r] :=
        filter_key_single hR hr (by rw [hrl, hll'])
      unfold matchRow at hml'
      rw [hfil] at hml'
      simp at hml'
      subst hml'
      exact ⟨rfl, rfl, rfl, rfl, rfl, rfl⟩
    · exfalso
      have : L.any (fun l0 => l0.merge_id == r'.merge_id) = true :=
        List.any_eq_true.mpr ⟨l, hl, by simp; exact hkey.symm⟩
      rw [this] at hany
      cases hany
  · intro l out hl hnor hout hkey
    rcases List.mem_map.mp hout with ⟨m, hm, rfl⟩
    rw [postMerge_merge_id] at hkey
    rcases mem_outerMerge.mp hm with ⟨l', hl', hml'⟩ | ⟨r', hr', _, rfl⟩
    · have hll' : l'.merge_id = l.merge_id :=
        (matchRow_mem_merge_id hml').symm.trans hkey
      have hleq : l' = l := List.inj_on_of_nodup_map hL hl' hl hll'
      subst hleq
      have hfil : R.filter (fun x => x.merge_id == l'.merge_id) = [] :=
        filter_key_nil (fun r hr => by
          rw [hll']
          exact hnor r hr)
      unfold matchRow at hml'
      rw [hfil] at hml'
      simp at hml'
      subst hml'
      exact ⟨rfl, rfl, rfl, rfl, rfl, rfl⟩
    · exact absurd hkey (hnor r' hr')

/--
C2 witness: the concrete flagged row and override row sharing headword "x":
the merged row takes the override's audio "oa", chapter "5", tags "ot", and
id "O1", with markers has_table/"".
-/
theorem c2_witness :
    (postMerge exCfg mC2).tl_audio = ovEx.o_audio ∧
    (postMerge exCfg mC2).chapter = ovEx.o_chapter ∧
    (postMerge exCfg mC2).Tags = ovEx.o_Tags ∧
    (postMerge exCfg mC2).note_id = ovEx.id ∧
    (postMerge exCfg mC2).has_table = "has_table".data ∧
    (postMerge exCfg mC2).no_table = [] :=
  (c2_override_precedence exCfg [flEx] [ovEx] (by simp) (by simp)).1
    flEx ovEx (postMerge exCfg mC2) (List.mem_singleton.mpr rfl)
    (List.mem_singleton.mpr rfl) rfl
    (by
      rw [show mergeOverride exCfg [flEx] [ovEx] = [postMerge exCfg mC2]
        from rfl]
      exact List.mem_singleton.mpr rfl)
    rfl

/-
Shape of the accumulating dictionary: processing one token either leaves it
unchanged or appends a single entry with a fresh key whose stored record
carries that key in its merge_id field.
-/

theorem tok_shape {cfg : Cfg} {excl : List Str} {row : InputRow} {d : Dict}
    {i : Nat} {tok : Str} {d' : Dict}
    (h : makeNewCardsTok cfg excl row d i tok = .ok d') :
    d' = d ∨ ∃ v : CardVal,
      d' = d ++ [(cfg.key (pyStrip tok), v)] ∧
      List.lookup (cfg.key (pyStrip tok)) d = none ∧
      v.merge_id = cfg.key (pyStrip tok) := by
  cases hflag : hasFlag cfg.flags (pyStrip tok) with
  | false =>
    rw [tok_unflagged hflag] at h
    simp only [Except.ok.injEq] at h
    exact Or.inl h.symm
  | true =>
    by_cases hexcl : cfg.key (pyStrip tok) ∈ excl
    · rw [tok_mastered hflag hexcl] at h
      simp only [Except.ok.injEq] at h
      exact Or.inl h.symm
    · cases hdd : toDefDict row.tl_notes_list with
      | error e =>
        rw [tok_dd_error hflag hexcl hdd] at h
        simp at h
      | ok dd =>
        cases hres : resolveDef cfg row.tl1_list row.tl_notes_list i dd with
        | error e =>
          rw [tok_resolve_error hflag hexcl hdd hres] at h
          simp at h
        | ok p =>
          rcases p with ⟨a, defn⟩
          by_cases hemp : cfg.key (pyStrip tok) = []
          · rw [tok_resolve_ok_empty hflag hexcl hdd hres hemp] at h
            simp at h
          · cases hdup : List.lookup (cfg.key (pyStrip tok)) d with
            | some v =>
              rw [tok_resolve_ok_dup hflag hexcl hdd hres hemp
                (by simp [hdup])] at h
              simp only [Except.ok.injEq] at h
              exact Or.inl h.symm
            | none =>
              rw [tok_resolve_ok_fresh hflag hexcl hdd hres hemp hdup] at h
              simp only [Except.ok.injEq] at h
              exact Or.inr ⟨_, h.symm, rfl, rfl⟩

theorem keys_step {cfg : Cfg} {excl : List Str} {row : InputRow} {d : Dict}
    {i : Nat} {tok : Str} {d' : Dict}
    (h : makeNewCardsTok cfg excl row d i tok = .ok d')
    (hnd : (d.map (fun p => p.1)).Nodup)
    (hmid : ∀ p ∈ d, p.2.merge_id = p.1) :
    (d'.map (fun p => p.1)).Nodup ∧ ∀ p ∈ d', p.2.merge_id = p.1 := by
  rcases tok_shape h with rfl | ⟨v, rfl, hfresh, hvm⟩
  · exact ⟨hnd, hmid⟩
  · constructor
    · rw [List.map_append]
      refine List.Nodup.append hnd (by simp) ?_
      intro x hx hx'
      simp at hx'
      subst hx'
      exact (lookup_none_iff.mp hfresh) hx
    · intro p hp
      rcases List.mem_append.mp hp with hp' | hp'
      · exact hmid p hp'
      · simp at hp'
        rw [hp']
        exact hvm

theorem keys_aux {cfg : Cfg} {excl : List Str} {row : InputRow} :
    ∀ (l : List Str) (i : Nat) (d d' : Dict),
      makeCardsAux cfg excl row i l d = .ok d' →
      (d.map (fun p => p.1)).Nodup → (∀ p ∈ d, p.2.merge_id = p.1) →
      (d'.map (fun p => p.1)).Nodup ∧ ∀ p ∈ d', p.2.merge_id = p.1 := by
  intro l
  induction l with
  | nil =>
    intro i d d' h hnd hmid
    simp only [makeCardsAux, Except.ok.injEq] at h
    subst h
    exact ⟨hnd, hmid⟩
  | cons t rest ih =>
    intro i d d' h hnd hmid
    rw [show makeCardsAux cfg excl row i (t :: rest) d =
      (match makeNewCardsTok cfg excl row d i t with
       | .error e => .error e
       | .ok d₁ => makeCardsAux cfg excl row (i + 1) rest d₁) from rfl] at h
    cases htok : makeNewCardsTok cfg excl row d i t with
    | error e => rw [htok] at h; simp at h
    | ok d₁ =>
      rw [htok] at h
      obtain ⟨hnd₁, hmid₁⟩ := keys_step htok hnd hmid
      exact ih (i + 1) d₁ d' h hnd₁ hmid₁

theorem keys_rows {cfg : Cfg} {excl : List Str} :
    ∀ (rs : List InputRow) (d d' : Dict),
      foldRows cfg excl rs d = .ok d' →
      (d.map (fun p => p.1)).Nodup → (∀ p ∈ d, p.2.merge_id = p.1) →
      (d'.map (fun p => p.1)).Nodup ∧ ∀ p ∈ d', p.2.merge_id = p.1 := by
  intro rs
  induction rs with
  | nil =>
    intro d d' h hnd hmid
    simp only [foldRows, Except.ok.injEq] at h
    subst h
    exact ⟨hnd, hmid⟩
  | cons r rest ih =>
    intro d d' h hnd hmid
    rw [show foldRows cfg excl (r :: rest) d =
      (match makeNewCards cfg excl d r with
       | .error e => .error e
       | .ok d₁ => foldRows cfg excl rest d₁) from rfl] at h
    cases hrow : makeNewCards cfg excl d r with
    | error e => rw [hrow] at h; simp at h
    | ok d₁ =>
      rw [hrow] at h
      obtain ⟨hnd₁, hmid₁⟩ :=
        keys_aux r.tl1_list 0 d d₁ hrow hnd hmid
      exact ih d₁ d' h hnd₁ hmid₁

theorem synth_keys {cfg : Cfg} {rows : List InputRow} {d : Dict}
    (h : synthesizeAll cfg rows = .ok d) :
    (d.map (fun p => p.1)).Nodup ∧ ∀ p ∈ d, p.2.merge_id = p.1 :=
  keys_rows rows [] d h (by simp) (by simp)

/-
Counting lemmas for the outer join.
-/

theorem flatten_singleton {α β : Type} (f : α → β) :
    ∀ L : List α, (L.map (fun a => [f a])).flatten = L.map f := by
  intro L
  induction L with
  | nil => rfl
  | cons a rest ih => simp_all

theorem matchRow_keys {R : List OverrideRow}
    (hR : (R.map (fun r => r.merge_id)).Nodup) (l : FlaggedRow) :
    (matchRow l R).map (fun m => m.merge_id) = [l.merge_id] := by
  by_cases hex : ∃ r ∈ R, r.merge_id = l.merge_id
  · obtain ⟨r, hr, hc⟩ := hex
    unfold matchRow
    rw [filter_key_single hR hr hc]
    simp
  · push_neg at hex
    unfold matchRow
    rw [filter_key_nil hex]
    rfl

theorem outerMerge_keys {L : List FlaggedRow} {R : List OverrideRow}
    (hR : (R.map (fun r => r.merge_id)).Nodup) :
    (outerMerge L R).map (fun m => m.merge_id) =
      L.map (fun l => l.merge_id) ++
      (R.filter (fun r =>
        !(L.any (fun l => l.merge_id == r.merge_id)))).map
        (fun r => r.merge_id) := by
  unfold outerMerge
  rw [List.map_append]
  congr 1
  · rw [List.map_flatten, List.map_map]
    have hcong : List.map
        ((List.map fun m => m.merge_id) ∘ fun l => matchRow l R) L =
        List.map (fun l => [l.merge_id]) L :=
      List.map_congr_left (fun l _ => matchRow_keys hR l)
    rw [hcong]
    exact flatten_singleton (fun l => l.merge_id) L
  · rw [List.map_map]
    rfl

theorem filter_map_key {L : List FlaggedRow} {R : List OverrideRow} :
    (R.filter (fun r =>
      !(L.any (fun l => l.merge_id == r.merge_id)))).map
      (fun r => r.merge_id) =
    (R.map (fun r => r.merge_id)).filter
      (fun c => !(L.any (fun l => l.merge_id == c))) := by
  induction R with
  | nil => rfl
  | cons a rest ih =>
    rw [List.filter_cons, List.map_cons, List.filter_cons]
    by_cases h : (!(L.any (fun l => l.merge_id == a.merge_id))) = true
    · rw [if_pos h, if_pos h, List.map_cons, ih]
    · rw [if_neg h, if_neg h, ih]

theorem nodup_filter_count {A B : List Str} {p : Str → Bool}
    (hA : A.Nodup) (hB : B.Nodup) (hp : ∀ c, p c = true ↔ c ∉ A) :
    (A ++ B.filter p).Nodup ∧
    (A ++ B.filter p).toFinset = A.toFinset ∪ B.toFinset ∧
    (A ++ B.filter p).length = (A.toFinset ∪ B.toFinset).card := by
  have hBf : (B.filter p).Nodup :=
    List.Nodup.sublist (List.filter_sublist B) hB
  have hdisj : A.Disjoint (B.filter p) := by
    intro x hxA hxF
    rcases List.mem_filter.mp hxF with ⟨_, hpx⟩
    exact (hp x).mp hpx hxA
  have hnd : (A ++ B.filter p).Nodup := List.Nodup.append hA hBf hdisj
  have hfin : (A ++ B.filter p).toFinset = A.toFinset ∪ B.toFinset := by
    ext x
    simp only [List.toFinset_append, Finset.mem_union, List.mem_toFinset]
    constructor
    · rintro (h | h)
      · exact Or.inl h
      · exact Or.inr (List.mem_filter.mp h).1
    · rintro (h | h)
      · exact Or.inl h
      · by_cases hxa : x ∈ A
        · exact Or.inl hxa
        · exact Or.inr (List.mem_filter.mpr ⟨h, (hp x).mpr hxa⟩)
  refine ⟨hnd, hfin, ?_⟩
  rw [← List.toFinset_card_of_nodup hnd, hfin]

/--
Helper for C1: a successful annotation step preserves the key column — the
annotated rows' merge_ids are the dictionary entries' merge_id fields.
-/
theorem annotateFlagged_ok_keys {cfg : Cfg} {d : Dict}
    {L : List FlaggedRow} (h : annotateFlagged cfg d = .ok L) :
    L.map (fun l => l.merge_id) = d.map (fun p => p.2.merge_id) := by
  unfold annotateFlagged at h
  split at h
  · simp at h
  · simp only [Except.ok.injEq] at h
    subst h
    rw [List.map_map]
    rfl

/--
C1 (amended): for every run of the merge in which synthesis produced the
flagged-card dictionary d, the annotation step succeeded (it raises KeyError
when d is empty, before any merge can run), and the override table's
headwords are pairwise distinct, the merged output has pairwise distinct
headwords, its headword set is the union of the two input headword sets,
and its record count equals the cardinality of that union.  (If the
override table repeats a headword, the pandas outer join duplicates that
headword in the output, so the distinctness proviso is necessary; the
flagged side is duplicate-free by construction.)
-/
theorem c1_outer_join_count :
    ∀ (cfg : Cfg) (rows : List InputRow) (ov : List OverrideRow) (d : Dict)
      (L : List FlaggedRow),
      synthesizeAll cfg rows = .ok d →
      annotateFlagged cfg d = .ok L →
      (ov.map (fun r => r.merge_id)).Nodup →
      (((mergeOverride cfg L ov).map (fun o => o.merge_id)).Nodup ∧
       ((mergeOverride cfg L ov).map (fun o => o.merge_id)).toFinset =
         (d.map (fun p => p.1)).toFinset ∪
           (ov.map (fun r => r.merge_id)).toFinset ∧
       (mergeOverride cfg L ov).length =
         ((d.map (fun p => p.1)).toFinset ∪
           (ov.map (fun r => r.merge_id)).toFinset).card) := by
  intro cfg rows ov d L hsynth hann hov
  obtain ⟨hnd, hmid⟩ := synth_keys hsynth
  have hkeysL : L.map (fun l => l.merge_id) = d.map (fun p => p.1) := by
    rw [annotateFlagged_ok_keys hann]
    exact List.map_congr_left (fun p hp => hmid p hp)
  have hmk : (mergeOverride cfg L ov).map (fun o => o.merge_id) =
      (outerMerge L ov).map (fun m => m.merge_id) := by
    unfold mergeOverride
    rw [List.map_map]
    rfl
  have hkeys : (mergeOverride cfg L ov).map (fun o => o.merge_id) =
      d.map (fun p => p.1) ++
      (ov.map (fun r => r.merge_id)).filter
        (fun c => !(L.any (fun l => l.merge_id == c))) := by
    rw [hmk, outerMerge_keys hov, filter_map_key, hkeysL]
  have hp : ∀ c, (!(L.any (fun l => l.merge_id == c))) = true ↔
      c ∉ d.map (fun p => p.1) := by
    intro c
    rw [← hkeysL]
    constructor
    · intro hb hmem
      rcases List.mem_map.mp hmem with ⟨l, hl, rfl⟩
      have : L.any (fun l0 => l0.merge_id == l.merge_id) = true :=
        List.any_eq_true.mpr ⟨l, hl, by simp⟩
      rw [this] at hb
      cases hb
    · intro hmem
      cases hany : L.any (fun l => l.merge_id == c) with
      | false => rfl
      | true =>
        exfalso
        rcases List.any_eq_true.mp hany with ⟨l, hl, hbeq⟩
        exact hmem (List.mem_map.mpr ⟨l, hl, by simpa using hbeq⟩)
  obtain ⟨hndAll, hfin, hlen⟩ := nodup_filter_count hnd hov hp
  refine ⟨?_, ?_, ?_⟩
  · rw [hkeys]
    exact hndAll
  · rw [hkeys]
    exact hfin
  · rw [show (mergeOverride cfg L ov).length =
      ((mergeOverride cfg L ov).map
        (fun o => o.merge_id)).length from (List.length_map _ _).symm]
    rw [hkeys]
    exact hlen

/--
C1 counterexample: a real run with a nonempty flagged-card table (one card
for headword "x") and an override table containing two rows with the same
headword "x": the merged output has 2 records while the union of the two
headword sets has cardinality 1 — the claim fails without the distinctness
proviso.
-/
theorem c1_counterexample :
    synthesizeAll exCfg [rowC4a] = .ok dC4 ∧
    annotateFlagged exCfg dC4 = .ok flC4 ∧
    ovEx.merge_id = ovDup.merge_id ∧
    (mergeOverride exCfg flC4 [ovEx, ovDup]).length = 2 ∧
    ((dC4.map (fun p => p.1)).toFinset ∪
      ([ovEx, ovDup].map (fun r => r.merge_id)).toFinset).card = 1 := by
  refine ⟨rfl, rfl, rfl, rfl, ?_⟩
  decide

/--
C1 witness: one synthesized flagged card (headword "x") merged with one
override row (headword "z") — the output keys are distinct, their set is
the union, and the record count equals the union cardinality.
-/
theorem c1_witness :
    ((mergeOverride exCfg flC4 [ovEx2]).map
      (fun o => o.merge_id)).Nodup ∧
    ((mergeOverride exCfg flC4 [ovEx2]).map
      (fun o => o.merge_id)).toFinset =
      (dC4.map (fun p => p.1)).toFinset ∪
        ([ovEx2].map (fun r => r.merge_id)).toFinset ∧
    (mergeOverride exCfg flC4 [ovEx2]).length =
      ((dC4.map (fun p => p.1)).toFinset ∪
        ([ovEx2].map (fun r => r.merge_id)).toFinset).card :=
  c1_outer_join_count exCfg [rowC4a] [ovEx2] dC4 flC4 rfl rfl (by simp)

/--
C8: the tl3 branch of `_process_tl_override_df` evaluated at all four
presence combinations.  The code raises the conflicting-input error whenever
at least one of the two prebuilt list columns is present — including when
BOTH are present, where its own error message ("Both or none of
`tl3_prompts_list` and `tl3_list` columns should be present") and its dead
trim branch say it should trim without error.  Only the neither-present
combination builds from the numbered triplet columns.
-/
theorem c8_tl3_branch_eval :
    processTl3Branch true true = .error .conflictingInput ∧
    processTl3Branch true false = .error .conflictingInput ∧
    processTl3Branch false true = .error .conflictingInput ∧
    processTl3Branch false false = .ok .buildFromTriplets :=
  ⟨rfl, rfl, rfl, rfl⟩

/--
C5: behaviour of the positional-reference parser on one trimmed token.
(1) length >= 3, offset 1 is = or ≈, offsets 0 and 2 digits, key fresh: the
entry (int(t0), (some (int(t2)), "" if len <= 4 else t[4:])) is appended;
(2) length >= 3, offset 0 digit, offset 1 the colon, key fresh: the entry
(int(t0), (none, t[3:])) is appended; (3) a token matching neither shape is
ignored without error; and the round-trip examples: parsing "2=1 (pl.)"
yields the entry (2, (some 1, "(pl.)")) and parsing "3: free text" yields
(3, (none, "free text")).
-/
theorem c5_to_def_dict_step :
    (∀ (d : DefDict) (tok : Str) (c0 c1 c2 : Char) (rest : Str),
      pyStrip tok = c0 :: c1 :: c2 :: rest →
      (c1 = '=' ∨ c1 = '≈') → c0.isDigit = true → c2.isDigit = true →
      List.lookup (digitVal c0) d = none →
      toDefDictStep d tok =
        .ok (d ++ [(digitVal c0, (some (digitVal c2),
          if (c0 :: c1 :: c2 :: rest).length ≤ 4 then []
          else (c0 :: c1 :: c2 :: rest).drop 4))])) ∧
    (∀ (d : DefDict) (tok : Str) (c0 c1 c2 : Char) (rest : Str),
      pyStrip tok = c0 :: c1 :: c2 :: rest →
      c0.isDigit = true → c1 = ':' →
      List.lookup (digitVal c0) d = none →
      toDefDictStep d tok =
        .ok (d ++ [(digitVal c0, (none, (c0 :: c1 :: c2 :: rest).drop 3))])) ∧
    (∀ (d : DefDict) (tok : Str),
      shapeEq (pyStrip tok) = false → shapeColon (pyStrip tok) = false →
      toDefDictStep d tok = .ok d) ∧
    toDefDict ["2=1 (pl.)".data] = .ok [(2, (some 1, "(pl.)".data))] ∧
    toDefDict ["3: free text".data] = .ok [(3, (none, "free text".data))] := by
  refine ⟨?_, ?_, ?_, rfl, rfl⟩
  · intro d tok c0 c1 c2 rest hstrip hc1 h0 h2 hlook
    have hb : ((c1 == '=' || c1 == '≈') && c0.isDigit && c2.isDigit) = true := by
      rcases hc1 with h | h <;> subst h <;> simp [h0, h2]
    have hs : (List.lookup (digitVal c0) d).isSome = false := by
      simp [hlook]
    simp only [toDefDictStep, hstrip, hb, hs, Bool.false_eq_true, if_false,
      if_true]
    split <;> simp_all
  · intro d tok c0 c1 c2 rest hstrip h0 hc1 hlook
    subst hc1
    have e1 : ((':' == '=') : Bool) = false := by decide
    have e2 : ((':' == '≈') : Bool) = false := by decide
    have hb : ((':' == '=' || ':' == '≈') && c0.isDigit && c2.isDigit) = false := by
      simp [e1, e2]
    have hs : (List.lookup (digitVal c0) d).isSome = false := by
      simp [hlook]
    simp [toDefDictStep, hstrip, hb, hs, h0]
  · intro d tok hEq hColon
    cases hval : pyStrip tok with
    | nil => simp [toDefDictStep, hval]
    | cons c0 t0 =>
      cases t0 with
      | nil => simp [toDefDictStep, hval]
      | cons c1 t1 =>
        cases t1 with
        | nil => simp [toDefDictStep, hval]
        | cons c2 rest =>
          rw [hval] at hEq hColon
          simp only [shapeEq] at hEq
          simp only [shapeColon] at hColon
          simp [toDefDictStep, hval, hEq, hColon]

/--
C5 witness: the first shape applied to the concrete token "2=1 (pl.)" on the
empty dictionary.
-/
theorem c5_witness :
    toDefDictStep [] "2=1 (pl.)".data = .ok [(2, (some 1, "(pl.)".data))] := by
  have h := c5_to_def_dict_step.1 [] "2=1 (pl.)".data '2' '=' '1'
    " (pl.)".data rfl (Or.inl rfl) (by decide) (by decide) rfl
  rw [h]
  rfl

end Flawful
